import Mathlib

/-!
Verification development for the clef query/reconciliation engine.

The repository's core (`clef/code.py`) is shallowly embedded below: a pandas
DataFrame becomes a `Frame` (a column list plus a list of rows, each row an
association list from column name to `Cell`); Python exceptions become
`Except`; in-place DataFrame mutation is made explicit by returning the
mutated frame.  Functions of `clef/helpers.py` (whose source is not part of
this tree; only its tests are) are modelled from the specification, refined
where necessary by the behaviour pinned down in `test/test_helpers.py`.

All string manipulation is done with structural recursion over `List Char`
so that every definition evaluates by kernel reduction on concrete inputs.
-/

namespace Clef

/-- Split a character list at every occurrence of `c` (models Python
`str.split(c)` semantics: n separators give n+1 pieces). -/
def splitCharAux (c : Char) : List Char → List Char → List (List Char)
  | [], acc => [acc.reverse]
  | x :: xs, acc =>
    if x = c then acc.reverse :: splitCharAux c xs []
    else splitCharAux c xs (x :: acc)

/-- Split a string on a separator character. -/
def splitChar (c : Char) (s : String) : List String :=
  (splitCharAux c s.data []).map (fun l => String.mk l)

/-- Join segments with a separator character (inverse of `splitChar`). -/
def joinChar (c : Char) (l : List String) : String :=
  String.mk (List.intercalate [c] (l.map String.data))

/-- `leadsWith pat l` is true iff `pat` is an initial run of `l`. -/
def leadsWith : List String → List String → Bool
  | [], _ => true
  | _ :: _, [] => false
  | p :: ps, x :: xs => if p = x then leadsWith ps xs else false

/-- `hasRun pat l` is true iff `pat` occurs as a contiguous run inside `l`
(used to model Python substring tests on '/'-separated paths). -/
def hasRun (pat : List String) : List String → Bool
  | [] => pat.isEmpty
  | x :: xs => leadsWith pat (x :: xs) || hasRun pat xs

/-- Uppercase a string character by character (models Python `str.upper`
for the ASCII project names used by clef). -/
def toUpperStr (s : String) : String :=
  String.mk (s.data.map Char.toUpper)

/-- A path segment of the form `v` followed by exactly 8 digits. -/
def isV8seg (s : String) : Bool :=
  match s.data with
  | 'v' :: rest => rest.length = 8 && rest.all Char.isDigit
  | _ => false

/-- Modelled from the spec: `convert_periods` of `clef/helpers.py` is not
under `src/`; per spec section 4.2 each non-null raw token encodes a closed
date range as two fixed-width date substrings concatenated with no
separator, and null tokens are skipped (not an error). -/
def convert_periods (tokens : List (Option String)) : List (String × String) :=
  tokens.filterMap (fun t =>
    t.map (fun s =>
      (String.mk (s.data.take (s.data.length / 2)),
       String.mk (s.data.drop (s.data.length / 2)))))

/-- The 8 digits of a `vNNNNNNNN` segment. -/
def vDigits (s : String) : String := String.mk (s.data.drop 1)

/-- The trailing `<anything>_<8-digit-date>` leaf rule of the version
extractor: the date is the final `_`-separated component of the last
non-empty path segment, provided it is exactly 8 digits. -/
def datedLeafDate (segs : List String) : Option String :=
  match (segs.filter (fun s => decide (s ≠ ""))).getLast? with
  | none => none
  | some leaf =>
    let parts := splitChar '_' leaf
    if parts.length ≥ 2 then
      let d := (parts.getLast?).getD ""
      if d.data.length = 8 && d.data.all Char.isDigit then some d else none
    else none

/-- Modelled from the spec: `get_version` of `clef/helpers.py` is not under
`src/`; per spec section 4.1 it scans path segments for a token `v` followed
by exactly 8 digits and returns the digits of the first such segment, falls
back to the date of a trailing `<anything>_<8-digit-date>` leaf, and yields
null when neither pattern occurs.  Behaviour at the four inputs of
`test_get_version` in `src/test/test_helpers.py` agrees with this model. -/
def get_version (path : String) : Option String :=
  let segs := splitChar '/' path
  match segs.find? isV8seg with
  | some s => some (vDigits s)
  | none => datedLeafDate segs

/-- The rr3/publications CSIRO-BOM layout: the only family of paths whose
dated leaf is rewritten, as pinned down by `test_fix_path`. -/
def bomCond (segs : List String) : Bool :=
  hasRun ["rr3", "publications", "CMIP5", "output1", "CSIRO-BOM"] segs &&
    segs.any (fun s => s = "files")

/-- Rewrite `.../files/<var>_<date>/...` to `.../latest/<var>/...`. -/
def bomRewrite (segs : List String) : List String :=
  let before := segs.takeWhile (fun s => decide (s ≠ "files"))
  let rest := segs.dropWhile (fun s => decide (s ≠ "files"))
  let tail := rest.drop 1
  let leaf := (tail.headD "")
  let var := ((splitChar '_' leaf).headD "")
  before ++ ["latest", var] ++ tail.drop 1

/-- Modelled from the spec: `fix_path` of `clef/helpers.py` is not under
`src/`.  Spec section 4.1 gives the priority rules (versioned replica paths
unchanged when `latest` is false; dated-leaf rewrite under `latest`;
`unsolicited` and legacy `output1`/`output2` staging segments rewritten to
the replica root `combined`).  The repository's own tests
(`test_fix_path` in `src/test/test_helpers.py`) restrict the dated-leaf
rewrite to rr3/publications CSIRO-BOM paths — the CSIRO-QCCCE path with the
same shape is asserted to pass through unchanged — so the model keeps that
restriction. -/
def fix_path (path : String) (latest : Bool) : String :=
  let segs := splitChar '/' path
  if !latest && segs.any isV8seg then path
  else if latest && bomCond segs then joinChar '/' (bomRewrite segs)
  else if segs.any (fun s => s = "unsolicited") then
    joinChar '/' (segs.map (fun s => if s = "unsolicited" then "combined" else s))
  else if hasRun ["al33", "replicas", "CMIP5"] segs &&
      segs.any (fun s => s = "output1" || s = "output2") then
    joinChar '/' (segs.map (fun s =>
      if s = "output1" || s = "output2" then "combined" else s))
  else path

/-- Modelled from the spec: the CMIP5 model alias table of
`clef/helpers.py` is not under `src/`; only the entries exercised by
`test_fix_model` are included.  Keys are the filename-safe spellings,
values the human spellings, which is the direction the tests pin down. -/
def cmip5_model_aliases : List (String × String) :=
  [("ACCESS1-0", "ACCESS1.0"), ("CESM1-BGC", "CESM1(BGC)"), ("inmcm4", "INM-CM4")]

/-- First-match lookup in an association list of strings. -/
def lookupStr (tbl : List (String × String)) (m : String) : Option String :=
  (tbl.find? (fun kv => decide (kv.1 = m))).map Prod.snd

/-- Modelled from the spec: `fix_model` of `clef/helpers.py` is not under
`src/`; it maps CMIP5 model names through the alias table (inverted when
`invert` is true) and passes unknown names through unchanged; projects
other than CMIP5 (after uppercasing) leave every name unchanged. -/
def fix_model (project : String) (models : List String) (invert : Bool) : List String :=
  if toUpperStr project = "CMIP5" then
    let tbl := if invert then cmip5_model_aliases.map (fun kv => (kv.2, kv.1))
               else cmip5_model_aliases
    models.map (fun m => (lookupStr tbl m).getD m)
  else models

/-! ## Data model: cells, rows, frames

A pandas DataFrame cell of `clef/code.py` holds either a scalar (string
facet value) or a tuple/list of strings (the `comb` column built by
`and_filter`, aggregated filename lists, ...).  A row is an association
list from column name to cell; a frame is a column list plus rows. -/

instance exceptDecEq {ε α : Type} [DecidableEq ε] [DecidableEq α] :
    DecidableEq (Except ε α) := fun x y =>
  match x, y with
  | Except.ok a, Except.ok b =>
    if h : a = b then isTrue (by rw [h])
    else isFalse (by intro hh; cases hh; exact h rfl)
  | Except.error a, Except.error b =>
    if h : a = b then isTrue (by rw [h])
    else isFalse (by intro hh; cases hh; exact h rfl)
  | Except.ok _, Except.error _ => isFalse (by intro hh; cases hh)
  | Except.error _, Except.ok _ => isFalse (by intro hh; cases hh)

/-- A DataFrame cell: scalar string, or tuple of strings. -/
inductive Cell where
  | s : String → Cell
  | t : List String → Cell
deriving DecidableEq

/-- A DataFrame row: association list column name to cell. -/
abbrev Row := List (String × Cell)

/-- `df[c]` for one row.  Python raises `KeyError` on a missing column;
every claim below only reads columns that are present, so the default cell
is never reached on a claim-relevant path. -/
def Row.get (r : Row) (c : String) : Cell :=
  ((r.find? (fun kv => decide (kv.1 = c))).map Prod.snd).getD (Cell.s "")

/-- Column assignment `df[c] = v` restricted to one row: replaces the value
when the column exists, otherwise appends the new column. -/
def Row.set (r : Row) (c : String) (v : Cell) : Row :=
  if r.any (fun kv => decide (kv.1 = c)) then
    r.map (fun kv => if kv.1 = c then (c, v) else kv)
  else r ++ [(c, v)]

/-- A DataFrame: ordered column names plus rows.  Rows produced by
`matching` carry an implicit positional integer index (pandas RangeIndex
after `append(..., ignore_index=True)`), modelled by list position. -/
structure Frame where
  cols : List String
  rows : List Row
deriving DecidableEq

/-- Scalar content of a cell (`and_filter` zips scalar facet columns). -/
def cellToStr : Cell → String
  | Cell.s v => v
  | Cell.t _ => ""

/-- Distinct elements of a list in order of first appearance (models the
construction of a Python `set`; only cardinality and membership of the
result matter to the code). -/
def firstDistinct {α : Type} [DecidableEq α] (l : List α) : List α :=
  l.foldl (fun acc x => if x ∈ acc then acc else acc ++ [x]) []

/-! ## `and_filter` (clef/code.py lines 257-310) -/

/-- The tuple of a row's values at the `fixed` (or any) key list; used both
as the group key of `df.groupby(fixed)` and in `comb` construction. -/
def rowKey (keys : List String) (r : Row) : List Cell :=
  keys.map (fun k => Row.get r k)

/-- `df['comb'] = list(zip(*[df[c] for c in cols]))` for one row: the tuple
of the row's `cols` values. -/
def combCell (cols : List String) (r : Row) : Cell :=
  Cell.t (cols.map (fun c => cellToStr (Row.get r c)))

/-- The in-place mutation `df['comb'] = ...` of `and_filter`, made explicit:
every row of the caller's frame gains (or overwrites) the `comb` column. -/
def addComb (f : Frame) (cols : List String) : Frame :=
  ⟨if f.cols.any (fun c => decide (c = "comb")) then f.cols else f.cols ++ ["comb"],
   f.rows.map (fun r => Row.set r "comb" (combCell cols r))⟩

/-- `kwargs[c]`: the requested value list for a comparison key. -/
def kwget (kwargs : List (String × List String)) (c : String) : List String :=
  (kwargs.lookup c).getD []

/-- `itertools.product` of the per-key requested value lists, in the same
(first component varies slowest) order. -/
def cartProd : List (List String) → List (List String)
  | [] => [[]]
  | vs :: rest => (vs.map (fun v => (cartProd rest).map (fun tl => v :: tl))).flatten

/-- The base list whose difference with `fixed` gives the fields retained in
the selection table.  Python iterates a `set` here; the iteration order is
unspecified and irrelevant to every property below, so the textual order of
the source is kept. -/
def usefulBase : List String :=
  ["version", "source_id", "model", "path", "dataset_id",
   "cmor_table", "table_id", "ensemble", "member_id"]

/-- `df.groupby(fixed)`: rows bucketed by their `fixed`-key tuple.  pandas
sorts group keys; key order is irrelevant to every property below, so
first-appearance order is used. -/
def groupByKeys (fixed : List String) (rows : List Row) : List (List Cell × List Row) :=
  (firstDistinct (rows.map (rowKey fixed))).map
    (fun k => (k, rows.filter (fun r => decide (rowKey fixed r = k))))

/-- An index label: a positional integer label of the input frame, or a
group-key label of the `groupby(fixed)` aggregate.  `df.index.isin(...)`
compares labels of the two kinds with Python equality, under which an
integer never equals a string or a tuple. -/
inductive Lbl where
  | pos : Nat → Lbl
  | key : List Cell → Lbl
deriving DecidableEq

/-- Result of `and_filter`: the caller's (mutated) frame, the `fullrow`
subset, and the `selection` aggregate (group key, aggregated value sets per
retained field). -/
structure AndOut where
  frame : Frame
  fullrow : List Row
  selection : List (List Cell × List (String × List Cell))
deriving DecidableEq

/-- Shallow embedding of `and_filter` (clef/code.py lines 257-310).
Mirrors the source line by line: the `comb` column assignment, the
`itertools.product` of requested values, the `useful` field list, the
`groupby(fixed).agg(set)` aggregate `d`, the length-based `selection`
filter, and `fullrow = df[df.index.isin(selection.index)]` — the last
modelled with explicit `Lbl` labels: positional labels for `df`, group-key
labels for `selection`.  The empty-`cols` branch raises `ClefException`. -/
def and_filter (df : Frame) (cols fixed : List String)
    (kwargs : List (String × List String)) : Except String AndOut :=
  if cols.length ≥ 1 then
    let dfm := addComb df cols
    let comb := cartProd (cols.map (kwget kwargs))
    let useful := usefulBase.filter (fun f => decide (¬ f ∈ fixed))
    let fields := "comb" :: useful.filter (fun f => decide (f ∈ dfm.cols))
    let d := (groupByKeys fixed dfm.rows).map
      (fun g => (g.1, fields.map (fun fl =>
        (fl, firstDistinct (g.2.map (fun r => Row.get r fl))))))
    let selection := d.filter
      (fun e => decide (((e.2.lookup "comb").getD []).length = comb.length))
    let fullrow := ((dfm.rows.enum).filter
      (fun ir => selection.any (fun e => decide (Lbl.pos ir.1 = Lbl.key e.1)))).map Prod.snd
    Except.ok ⟨dfm, fullrow, selection⟩
  else Except.error "List of attributes to apply filter to is empty"

/-! ## `local_latest` (clef/code.py lines 386-403) -/

/-- The version-sensitive columns excluded from the duplicate key. -/
def versionSensitive : List String :=
  ["path", "version", "time_complete", "filename", "fdate", "tdate", "periods"]

/-- The version string of a row. -/
def verStr (r : Row) : String := cellToStr (Row.get r "version")

/-- Python string comparison (lexicographic, by character code), as used by
`sort_values('version')` on a string column. -/
def charsLe : List Char → List Char → Bool
  | [], _ => true
  | _ :: _, [] => false
  | a :: as, b :: bs => if a < b then true else if b < a then false else charsLe as bs

/-- Row order by version string. -/
def vle (a b : Row) : Prop := charsLe (verStr a).data (verStr b).data = true

instance vleDecidable : DecidableRel vle := fun a b =>
  inferInstanceAs (Decidable (charsLe (verStr a).data (verStr b).data = true))

/-- `drop_duplicates(subset=key, keep='last')`: a row survives iff no later
row has the same key. -/
def dropDupKeepLast (key : Row → List Cell) : List Row → List Row
  | [] => []
  | r :: rs =>
    if rs.any (fun s => decide (key s = key r)) then dropDupKeepLast key rs
    else r :: dropDupKeepLast key rs

/-- The grouping key of `local_latest`: every column except the
version-sensitive set. -/
def latestKey (f : Frame) (r : Row) : List Cell :=
  rowKey (f.cols.filter (fun k => decide (¬ k ∈ versionSensitive))) r

/-- Shallow embedding of `local_latest` (clef/code.py lines 386-403): inputs
of at most one row are returned unchanged; otherwise the rows are sorted by
version (ascending; pandas `sort_values` tie order is irrelevant below) and
duplicates over all non-version-sensitive columns are dropped keeping the
last, i.e. a maximal-version, occurrence. -/
def local_latest (f : Frame) : Frame :=
  if f.rows.length ≤ 1 then f
  else ⟨f.cols, dropDupKeepLast (latestKey f) (List.insertionSort vle f.rows)⟩

/-! ## `matching` (clef/code.py lines 72-128) -/

/-- Outcome of the try-block of `matching` (the local or remote query):
either some exception was caught (the except branch) or a result frame was
accumulated. -/
inductive QueryOutcome where
  | err : String → QueryOutcome
  | ok : Frame → QueryOutcome

/-- What `matching` gives back to its caller. -/
inductive MatchResult where
  | failed : MatchResult
  | noResults : String → MatchResult
  | filtered : List Row → List (List Cell × List (String × List Cell)) → MatchResult
  | filterError : String → MatchResult
deriving DecidableEq

/-- Render kwargs for the warning message (Python prints the dict repr; the
exact rendering is immaterial, only that a descriptive message is shown). -/
def kwargsStr (kwargs : List (String × List String)) : String :=
  String.intercalate ", " (kwargs.map (fun kv =>
    kv.1 ++ "=" ++ String.intercalate "," kv.2))

/-- The zero-rows warning message of `matching`. -/
def msgFor (loc : Bool) (kwargs : List (String × List String)) : String :=
  (if loc then "There are no simulations stored locally"
   else "There are no simulations currently available on the ESGF nodes") ++
    " for " ++ kwargsStr kwargs

/-- Shallow embedding of the result handling of `matching` (clef/code.py
lines 72-128) from the point where the query outcome is known: a caught
query exception yields `failed` (Python `return None`); zero rows yield
`noResults` with the warning message (Python prints it and returns
`None, None`) without ever reaching `and_filter`; otherwise `and_filter`
runs, its `ClefException` — not caught by the try-block, which has already
ended — propagating as `filterError`. -/
def matching (outcome : QueryOutcome) (cols fixed : List String)
    (kwargs : List (String × List String)) (loc : Bool) : MatchResult :=
  match outcome with
  | QueryOutcome.err _ => MatchResult.failed
  | QueryOutcome.ok results =>
    if results.rows.length = 0 then MatchResult.noResults (msgFor loc kwargs)
    else
      match and_filter results cols fixed kwargs with
      | Except.ok out => MatchResult.filtered out.fullrow out.selection
      | Except.error e => MatchResult.filterError e

/-! ## `ids_dict` (clef/code.py lines 406-431) -/

/-- A Python runtime error surfaced by the embedding. -/
inductive PyErr where
  | unboundLocal : String → PyErr
deriving DecidableEq

/-- CMIP6 facet order of `ids_dict`. -/
def cmip6Facets : List String :=
  ["project", "activity_id", "institution_id", "source_id", "experiment_id",
   "member_id", "table_id", "variable_id", "grid_label", "version"]

/-- CMIP5 facet order of `ids_dict`. -/
def cmip5Facets : List String :=
  ["project", "product", "institute", "model", "experiment",
   "time_frequency", "realm", "cmor_table", "ensemble", "version"]

/-- `dids[0].split(".")[0]` (Python raises `IndexError` on an empty list
before this logic is reached; the empty case is not claim-relevant). -/
def projectOf (dids : List String) : String :=
  ((splitChar '.' (dids.headD "")).headD "")

/-- One output row of `ids_dict`: the facet list zipped with the
dot-components of one identifier. -/
def didRow (facets : List String) (did : String) : Row :=
  (facets.zip (splitChar '.' did)).map (fun kv => (kv.1, Cell.s kv.2))

/-- Shallow embedding of `ids_dict` (clef/code.py lines 406-431): the facet
schema is chosen by comparing the first identifier's project component with
the exact strings `CMIP6` and `cmip5`; any other component reaches
`return results` before the local variable `results` is assigned (it is
first bound only after the if/elif/else), which raises
`UnboundLocalError` — modelled as `PyErr.unboundLocal "results"`. -/
def ids_dict (dids : List String) : Except PyErr Frame :=
  let project := projectOf dids
  if project = "CMIP6" then
    Except.ok ⟨cmip6Facets, dids.map (didRow cmip6Facets)⟩
  else if project = "cmip5" then
    Except.ok ⟨cmip5Facets, dids.map (didRow cmip5Facets)⟩
  else Except.error (PyErr.unboundLocal "results")

/-! ## Concrete frames used by witnesses and counterexamples -/

/-- Two records of one entity (model `m1`) covering both requested values
of `variable`; the entity qualifies under the AND-filter. -/
def bugFrame : Frame :=
  ⟨["model", "variable"],
   [[("model", Cell.s "m1"), ("variable", Cell.s "tas")],
    [("model", Cell.s "m1"), ("variable", Cell.s "pr")]]⟩

/-- First row of the latest-version example: version 20110101. -/
def rowV1 : Row :=
  [("model", Cell.s "m1"), ("version", Cell.s "20110101"),
   ("path", Cell.s "p1"), ("time_complete", Cell.s "True")]

/-- Second row of the latest-version example: version 20120202. -/
def rowV2 : Row :=
  [("model", Cell.s "m1"), ("version", Cell.s "20120202"),
   ("path", Cell.s "p2"), ("time_complete", Cell.s "False")]

/-- Two rows differing only in version-sensitive columns. -/
def twoRowFrame : Frame :=
  ⟨["model", "version", "path", "time_complete"], [rowV1, rowV2]⟩

/-- A frame with a schema but no rows (a query with zero results). -/
def emptyFrame : Frame := ⟨["model", "variable"], []⟩

/-! ## Order lemmas for the version comparison -/

theorem charsLe_refl : ∀ l : List Char, charsLe l l = true := by
  intro l
  induction l with
  | nil => rfl
  | cons a as ih => simp [charsLe, lt_irrefl, ih]

theorem vle_refl (r : Row) : vle r r := charsLe_refl _

theorem charsLe_total : ∀ a b : List Char, charsLe a b = true ∨ charsLe b a = true := by
  intro a
  induction a with
  | nil => intro b; left; rfl
  | cons x xs ih =>
    intro b
    cases b with
    | nil => right; rfl
    | cons y ys =>
      rcases lt_trichotomy x y with h | h | h
      · left; simp [charsLe, h]
      · subst h
        rcases ih ys with h' | h'
        · left; simp [charsLe, lt_irrefl, h']
        · right; simp [charsLe, lt_irrefl, h']
      · right; simp [charsLe, h]

theorem charsLe_trans :
    ∀ a b c : List Char, charsLe a b = true → charsLe b c = true → charsLe a c = true := by
  intro a
  induction a with
  | nil => intro b c _ _; rfl
  | cons x xs ih =>
    intro b c h1 h2
    cases b with
    | nil => simp [charsLe] at h1
    | cons y ys =>
      cases c with
      | nil => simp [charsLe] at h2
      | cons z zs =>
        rcases lt_trichotomy x y with hxy | hxy | hxy
        · rcases lt_trichotomy y z with hyz | hyz | hyz
          · simp [charsLe, lt_trans hxy hyz]
          · subst hyz; simp [charsLe, hxy]
          · simp [charsLe, hyz, asymm hyz] at h2
        · subst hxy
          rcases lt_trichotomy x z with hyz | hyz | hyz
          · simp [charsLe, hyz]
          · subst hyz
            simp only [charsLe, lt_irrefl, if_false] at h1 h2 ⊢
            exact ih ys zs h1 h2
          · simp [charsLe, hyz, asymm hyz] at h2
        · simp [charsLe, hxy, asymm hxy] at h1

instance : IsTotal Row vle := ⟨fun _ _ => charsLe_total _ _⟩

instance : IsTrans Row vle := ⟨fun _ _ _ h1 h2 => charsLe_trans _ _ _ h1 h2⟩

/-! ## Lemmas about `dropDupKeepLast` -/

theorem mem_dropDupKeepLast (key : Row → List Cell) :
    ∀ {l : List Row} {r : Row}, r ∈ dropDupKeepLast key l → r ∈ l := by
  intro l
  induction l with
  | nil => intro r h; simp [dropDupKeepLast] at h
  | cons x xs ih =>
    intro r h
    by_cases hx : xs.any (fun s => decide (key s = key x)) = true
    · rw [dropDupKeepLast, if_pos hx] at h
      exact List.mem_cons_of_mem x (ih h)
    · rw [dropDupKeepLast, if_neg hx] at h
      rcases List.mem_cons.mp h with h1 | h2
      · exact h1 ▸ List.mem_cons_self x xs
      · exact List.mem_cons_of_mem x (ih h2)

theorem not_key_of_any_false {key : Row → List Cell} {x : Row} {xs : List Row}
    (hx : ¬ xs.any (fun s => decide (key s = key x)) = true) :
    ∀ y ∈ xs, ¬ key y = key x := by
  intro y hy hk
  exact hx (List.any_eq_true.mpr ⟨y, hy, decide_eq_true hk⟩)

theorem dropDupKeepLast_max (key : Row → List Cell) :
    ∀ {l : List Row}, List.Pairwise vle l →
      ∀ {r : Row}, r ∈ dropDupKeepLast key l →
        ∀ s ∈ l, key s = key r → vle s r := by
  intro l
  induction l with
  | nil => intro _ r hr; simp [dropDupKeepLast] at hr
  | cons x xs ih =>
    intro hp r hr s hs hk
    have hhead : ∀ y ∈ xs, vle x y := (List.pairwise_cons.mp hp).1
    have htail : List.Pairwise vle xs := (List.pairwise_cons.mp hp).2
    by_cases hx : xs.any (fun s => decide (key s = key x)) = true
    · rw [dropDupKeepLast, if_pos hx] at hr
      rcases List.mem_cons.mp hs with rfl | hs'
      · exact hhead r (mem_dropDupKeepLast key hr)
      · exact ih htail hr s hs' hk
    · rw [dropDupKeepLast, if_neg hx] at hr
      have hnone := not_key_of_any_false hx
      rcases List.mem_cons.mp hr with rfl | hr'
      · rcases List.mem_cons.mp hs with rfl | hs'
        · exact vle_refl s
        · exact absurd hk (hnone s hs')
      · rcases List.mem_cons.mp hs with rfl | hs'
        · exact absurd ((hnone r (mem_dropDupKeepLast key hr')) ∘ Eq.symm) (not_not.mpr hk)
        · exact ih htail hr' s hs' hk

theorem dropDupKeepLast_keys_nodup (key : Row → List Cell) :
    ∀ l : List Row, ((dropDupKeepLast key l).map key).Nodup := by
  intro l
  induction l with
  | nil => simp [dropDupKeepLast]
  | cons x xs ih =>
    by_cases hx : xs.any (fun s => decide (key s = key x)) = true
    · rw [dropDupKeepLast, if_pos hx]; exact ih
    · rw [dropDupKeepLast, if_neg hx, List.map_cons]
      refine List.nodup_cons.mpr ⟨?_, ih⟩
      intro hmem
      rcases List.mem_map.mp hmem with ⟨y, hy, hky⟩
      exact not_key_of_any_false hx y (mem_dropDupKeepLast key hy) hky

theorem dropDupKeepLast_covers (key : Row → List Cell) :
    ∀ l : List Row, ∀ s ∈ l, ∃ r ∈ dropDupKeepLast key l, key r = key s := by
  intro l
  induction l with
  | nil => intro s hs; simp at hs
  | cons x xs ih =>
    intro s hs
    by_cases hx : xs.any (fun s => decide (key s = key x)) = true
    · rw [dropDupKeepLast, if_pos hx]
      rcases List.mem_cons.mp hs with rfl | hs'
      · rcases List.any_eq_true.mp hx with ⟨t, ht, hkt⟩
        rcases ih t ht with ⟨r, hr, hkr⟩
        exact ⟨r, hr, hkr.trans (of_decide_eq_true hkt)⟩
      · exact ih s hs'
    · rw [dropDupKeepLast, if_neg hx]
      rcases List.mem_cons.mp hs with rfl | hs'
      · exact ⟨s, List.mem_cons_self s _, rfl⟩
      · rcases ih s hs' with ⟨r, hr, hkr⟩
        exact ⟨r, List.mem_cons_of_mem x hr, hkr⟩

/-! ## Lemmas about `Row.set` for the mutation claim -/

theorem Row.set_of_not_mem {r : Row} {c : String} {v : Cell}
    (h : ¬ c ∈ r.map Prod.fst) : Row.set r c v = r ++ [(c, v)] := by
  rw [Row.set, if_neg]
  intro ha
  rcases List.any_eq_true.mp ha with ⟨kv, hkv, hd⟩
  exact h (List.mem_map.mpr ⟨kv, hkv, of_decide_eq_true hd⟩)

theorem Row.set_ne_of_not_mem {r : Row} {c : String} {v : Cell}
    (h : ¬ c ∈ r.map Prod.fst) : Row.set r c v ≠ r := by
  rw [Row.set_of_not_mem h]
  intro he
  have := congrArg List.length he
  simp at this

/-! ## Claim theorems -/

/-- Claim C1 (code_bug evidence): on a frame whose single entity `m1` has a
record for every requested `variable` value, `and_filter` does qualify the
entity (`selection` holds exactly the group key `m1`, and the input holds 2
records), yet the returned row subset `fullrow` is empty: the source line
`df[df.index.isin(selection.index)]` compares the frame's positional integer
labels with the group-key labels of `selection`, which never match — the
claim (and the function's own docstring) say the subset consists of the
qualifying entities' records. -/
theorem and_filter_fullrow_empty_bug :
    (and_filter bugFrame ["variable"] ["model"] [("variable", ["tas", "pr"])]).map
        (fun o => (o.selection.map Prod.fst, o.fullrow)) =
      Except.ok ([[Cell.s "m1"]], ([] : List Row)) ∧
    bugFrame.rows.length = 2 := by decide

/-- Claim C2: `local_latest` returns an input of at most one row unchanged;
otherwise it keeps the column schema, and keeps only rows of the input such
that each kept row has a maximal (by the lexicographic order `vle` on the
`version` string) version among all input rows sharing its tuple of values
on every column outside the version-sensitive set, with pairwise distinct
group tuples among kept rows and every input group represented; the
claim's two-row instance (rows differing only in version-sensitive columns)
collapses to exactly the row carrying the greatest version. -/
theorem local_latest_correct (f : Frame) :
    (f.rows.length ≤ 1 → local_latest f = f) ∧
    (local_latest f).cols = f.cols ∧
    (∀ r ∈ (local_latest f).rows, r ∈ f.rows ∧
        ∀ s ∈ f.rows, latestKey f s = latestKey f r → vle s r) ∧
    ((local_latest f).rows.map (latestKey f)).Nodup ∧
    (∀ s ∈ f.rows, ∃ r ∈ (local_latest f).rows, latestKey f r = latestKey f s) ∧
    local_latest twoRowFrame = ⟨twoRowFrame.cols, [rowV2]⟩ := by
  by_cases h : f.rows.length ≤ 1
  · have he : local_latest f = f := by rw [local_latest, if_pos h]
    refine ⟨fun _ => he, by rw [he], ?_, ?_, ?_, by decide⟩
    · rw [he]
      intro r hr
      refine ⟨hr, ?_⟩
      intro s hs _
      have hsr : s = r := by
        cases hrows : f.rows with
        | nil => rw [hrows] at hr; simp at hr
        | cons a rest =>
          cases rest with
          | nil =>
            rw [hrows] at hr hs
            simp at hr hs
            rw [hr, hs]
          | cons b tl => rw [hrows] at h; simp at h
      exact hsr ▸ vle_refl r
    · rw [he]
      cases hrows : f.rows with
      | nil => simp
      | cons a rest =>
        cases rest with
        | nil => simp
        | cons b tl => rw [hrows] at h; simp at h
    · rw [he]
      intro s hs
      exact ⟨s, hs, rfl⟩
  · have he : local_latest f =
        ⟨f.cols, dropDupKeepLast (latestKey f) (List.insertionSort vle f.rows)⟩ := by
      rw [local_latest, if_neg h]
    have hsorted : List.Pairwise vle (List.insertionSort vle f.rows) :=
      List.sorted_insertionSort vle f.rows
    have hmem : ∀ x : Row, x ∈ List.insertionSort vle f.rows ↔ x ∈ f.rows :=
      fun x => (List.perm_insertionSort vle f.rows).mem_iff
    refine ⟨fun hh => absurd hh h, by rw [he], ?_, ?_, ?_, by decide⟩
    · rw [he]
      intro r hr
      have hr1 : r ∈ List.insertionSort vle f.rows := mem_dropDupKeepLast _ hr
      refine ⟨(hmem r).mp hr1, ?_⟩
      intro s hs hk
      exact dropDupKeepLast_max _ hsorted hr s ((hmem s).mpr hs) hk
    · rw [he]
      exact dropDupKeepLast_keys_nodup _ _
    · rw [he]
      intro s hs
      exact dropDupKeepLast_covers _ _ s ((hmem s).mpr hs)

/-- Witness for C2: at the concrete two-row frame, the kept row `rowV2` is in
the output and the maximality clause applied to `rowV1` (same group tuple)
yields that `rowV1`'s version is at most `rowV2`'s. -/
theorem local_latest_correct_witness : vle rowV1 rowV2 :=
  ((local_latest_correct twoRowFrame).2.2.1 rowV2 (by decide)).2 rowV1 (by decide) (by decide)

/-- Claim C3: invoking `and_filter` with an empty comparison-column list
raises `ClefException` (modelled as the error value carrying the source's
message) for every frame, entity-key list and constraint set; no result is
produced. -/
theorem and_filter_empty_cols (df : Frame) (fixed : List String)
    (kwargs : List (String × List String)) :
    and_filter df [] fixed kwargs =
      Except.error "List of attributes to apply filter to is empty" := rfl

/-- Claim C4: whenever the query phase of `matching` yields zero rows, the
function reports the empty outcome as the `noResults` value carrying the
descriptive warning message (Python prints it and returns `None, None`), and
never raises: in particular `and_filter` (whose empty-`cols` branch would
raise) is not reached. -/
theorem matching_no_results (results : Frame) (cols fixed : List String)
    (kwargs : List (String × List String)) (loc : Bool)
    (h : results.rows = []) :
    matching (QueryOutcome.ok results) cols fixed kwargs loc =
      MatchResult.noResults (msgFor loc kwargs) ∧
    (msgFor loc kwargs).length ≠ 0 := by
  constructor
  · rw [matching, h]
    rfl
  · intro hlen
    simp only [msgFor, String.length_append] at hlen
    have h4 : (" for " : String).length = 5 := rfl
    omega

/-- Witness for C4: a zero-row query outcome with an empty `cols` list (the
configuration under which `and_filter` would raise) still reports
`noResults` with the message, per the theorem. -/
theorem matching_no_results_witness :
    matching (QueryOutcome.ok emptyFrame) [] [] [("variable", ["tas"])] true =
      MatchResult.noResults (msgFor true [("variable", ["tas"])]) :=
  (matching_no_results emptyFrame [] [] [("variable", ["tas"])] true rfl).1

/-- Counterexample to claim C5 as stated: the CSIRO-QCCCE path has an
`output1` segment followed by a `<var>_<8-digit-date>` leaf, yet
`fix_path` with `latest = true` returns it unchanged instead of rewriting
the dated leaf to a `latest` segment — exactly what the repository's own
`test_fix_path` asserts. -/
theorem fix_path_qccce_unchanged :
    fix_path "/g/data/rr3/publications/CMIP5/output1/CSIRO-QCCCE/more/files/tas_20110518/" true =
      "/g/data/rr3/publications/CMIP5/output1/CSIRO-QCCCE/more/files/tas_20110518/" ∧
    "/g/data/rr3/publications/CMIP5/output1/CSIRO-QCCCE/more/files/tas_20110518/" ≠
      "/g/data/rr3/publications/CMIP5/output1/CSIRO-QCCCE/more/latest/tas/" := by decide

/-- Claim C5 as amended: the dated-leaf rewrite under `latest = true`
applies (only) to the rr3/publications CSIRO-BOM family of paths, stripping
the date and replacing the `files`/dated-leaf pair with `latest/<var>`; the
same paths under `latest = false` are returned unchanged; an `unsolicited`
segment is rewritten to `combined`; and the al33 replica `output1` staging
segment is likewise rewritten to `combined` — the eight path/flag pairs of
`test_fix_path` evaluated on the model. -/
theorem fix_path_test_behaviour :
    fix_path "/g/data/rr3/publications/CMIP5/output1/CSIRO-BOM/more/files/tas_20120115/" true =
      "/g/data/rr3/publications/CMIP5/output1/CSIRO-BOM/more/latest/tas/" ∧
    fix_path "/g/data/rr3/publications/CMIP5/output1/CSIRO-BOM/more/files/tas_20120115/name.nc" true =
      "/g/data/rr3/publications/CMIP5/output1/CSIRO-BOM/more/latest/tas/name.nc" ∧
    fix_path "/g/data/rr3/publications/CMIP5/output1/CSIRO-QCCCE/more/files/tas_20110518/" true =
      "/g/data/rr3/publications/CMIP5/output1/CSIRO-QCCCE/more/files/tas_20110518/" ∧
    fix_path "/g/data/al33/replicas/CMIP5/output1/more/v20120316/tas/" true =
      "/g/data/al33/replicas/CMIP5/combined/more/v20120316/tas/" ∧
    fix_path "/g/data/al33/replicas/CMIP5/output1/more/v20120316/tas/name.nc" true =
      "/g/data/al33/replicas/CMIP5/combined/more/v20120316/tas/name.nc" ∧
    fix_path "/g/data/al33/replicas/CMIP5/unsolicited/more/v20120316/tas/" true =
      "/g/data/al33/replicas/CMIP5/combined/more/v20120316/tas/" ∧
    fix_path "/g/data1/rr3/publications/CMIP5/output1/CSIRO-BOM/more/files/pr_20141119/" true =
      "/g/data1/rr3/publications/CMIP5/output1/CSIRO-BOM/more/latest/pr/" ∧
    fix_path "/g/data1/rr3/publications/CMIP5/output1/CSIRO-BOM/more/files/pr_20141119/" false =
      "/g/data1/rr3/publications/CMIP5/output1/CSIRO-BOM/more/files/pr_20141119/" := by
  decide

/-- Claim C6: `convert_periods` maps the empty token sequence to the empty
interval sequence, and a trailing null token is skipped, leaving the output
identical to that of the sequence without it. -/
theorem convert_periods_empty_null :
    convert_periods [] = [] ∧
    ∀ ts : List (Option String), convert_periods (ts ++ [none]) = convert_periods ts := by
  refine ⟨rfl, ?_⟩
  intro ts
  simp [convert_periods]

/-- Claim C7: `get_version` returns the 8 digits of the first path segment
of the form `v` plus exactly 8 digits; when no such segment exists it falls
back to the trailing `<anything>_<8-digit-date>` leaf rule (`datedLeafDate`,
which yields the 8-digit date of the last non-empty segment, or null when
that leaf is not date-stamped); the four concrete paths of
`test_get_version` evaluate as the tests assert. -/
theorem get_version_spec :
    (∀ p s, (splitChar '/' p).find? isV8seg = some s →
        get_version p = some (vDigits s)) ∧
    (∀ p, (splitChar '/' p).find? isV8seg = none →
        get_version p = datedLeafDate (splitChar '/' p)) ∧
    get_version "/g/data/inst/model/var/v20130405" = some "20130405" ∧
    get_version "/g/data/inst/model/var/v20130405/tas/files" = some "20130405" ∧
    get_version "/g/data/inst/model/var/files/tas_20110518" = some "20110518" ∧
    get_version "/g/data/inst/model/var/noversionhere/tas/files" = none := by
  refine ⟨?_, ?_, by decide, by decide, by decide, by decide⟩
  · intro p s h
    simp [get_version, h]
  · intro p h
    simp [get_version, h]

/-- Witness for C7: the first-`vNNNNNNNN`-segment clause applied at a
concrete path. -/
theorem get_version_spec_witness :
    get_version "/g/data/inst/model/var/v20130405" = some (vDigits "v20130405") :=
  get_version_spec.1 "/g/data/inst/model/var/v20130405" "v20130405" (by decide)

/-- Counterexample to claim C8 as stated: with `invert = false` the
human-form name `CESM1(BGC)` is NOT mapped to its filename-safe form
`CESM1-BGC` — it passes through unchanged, while it is the filename-safe
`CESM1-BGC` that `invert = false` maps to the human form (as
`test_fix_model` asserts): the claim has the two directions swapped. -/
theorem fix_model_direction_swapped :
    fix_model "CMIP5" ["CESM1(BGC)"] false = ["CESM1(BGC)"] ∧
    fix_model "CMIP5" ["CESM1-BGC"] false = ["CESM1(BGC)"] ∧
    ("CESM1(BGC)" : String) ≠ "CESM1-BGC" := by decide

/-- Claim C8 as amended: `invert = false` maps each CMIP5 model name from
its filename-safe form to its human form, `invert = true` maps the human
form back to the filename-safe form (the directions pinned by
`test_fix_model`), names unknown to the alias table pass through unchanged,
and projects other than CMIP5 leave every name unchanged. -/
theorem fix_model_test_behaviour :
    fix_model "cmip5" ["INM-CM4"] true = ["inmcm4"] ∧
    fix_model "CMIP5" ["CESM1-BGC", "ACCESS1-0"] false = ["CESM1(BGC)", "ACCESS1.0"] ∧
    (∀ project models invert, toUpperStr project ≠ "CMIP5" →
        fix_model project models invert = models) ∧
    (∀ models invert,
        (∀ m ∈ models,
          lookupStr (if invert then cmip5_model_aliases.map (fun kv => (kv.2, kv.1))
                     else cmip5_model_aliases) m = none) →
        fix_model "CMIP5" models invert = models) := by
  refine ⟨by decide, by decide, ?_, ?_⟩
  · intro project models invert h
    rw [fix_model, if_neg h]
  · intro models invert h
    rw [fix_model, if_pos (by decide)]
    have h' : ∀ m ∈ models,
        (lookupStr (if invert then cmip5_model_aliases.map (fun kv => (kv.2, kv.1))
                    else cmip5_model_aliases) m).getD m = m := by
      intro m hm
      rw [h m hm]
      rfl
    calc models.map _ = models.map id := List.map_congr_left h'
      _ = models := List.map_id models

/-- Witness for C8's amended claim: a name unknown to the alias table
passes through unchanged, via the pass-through clause of the theorem. -/
theorem fix_model_test_behaviour_witness :
    fix_model "CMIP5" ["FOO-1"] false = ["FOO-1"] :=
  fix_model_test_behaviour.2.2.2 ["FOO-1"] false (by decide)

/-- Claim C9: for a non-empty frame and non-empty `cols`, `and_filter`
succeeds and its frame effect adds the `comb` column (the tuple of the
record's `cols` values) to every record of the caller's frame, so the
caller's records are not left unchanged: the post-call rows are exactly the
input rows each extended with `comb`, they all carry the `comb` field, and
they differ from the input rows. -/
theorem and_filter_adds_comb (df : Frame) (cols fixed : List String)
    (kwargs : List (String × List String))
    (hc : cols ≠ []) (hne : df.rows ≠ [])
    (hnew : ∀ r ∈ df.rows, ¬ "comb" ∈ r.map Prod.fst) :
    (and_filter df cols fixed kwargs).map (fun o => o.frame.rows) =
      Except.ok (df.rows.map (fun r => Row.set r "comb" (combCell cols r))) ∧
    (∀ r' ∈ df.rows.map (fun r => Row.set r "comb" (combCell cols r)),
        "comb" ∈ r'.map Prod.fst) ∧
    df.rows.map (fun r => Row.set r "comb" (combCell cols r)) ≠ df.rows := by
  have hpos : cols.length ≥ 1 := by
    cases cols with
    | nil => exact absurd rfl hc
    | cons a tl => exact Nat.succ_le_succ (Nat.zero_le _)
  refine ⟨?_, ?_, ?_⟩
  · rw [and_filter, if_pos hpos]
    rfl
  · intro r' hr'
    rcases List.mem_map.mp hr' with ⟨r, hr, rfl⟩
    rw [Row.set_of_not_mem (hnew r hr), List.map_append]
    exact List.mem_append_right _ (by simp)
  · cases hrows : df.rows with
    | nil => exact absurd hrows hne
    | cons r0 rest =>
      intro he
      have h0 : Row.set r0 "comb" (combCell cols r0) = r0 := (List.cons.injEq _ _ _ _ ▸ he).1
      have hn0 : ¬ "comb" ∈ r0.map Prod.fst := hnew r0 (hrows ▸ List.mem_cons_self r0 rest)
      exact Row.set_ne_of_not_mem hn0 h0

/-- Witness for C9: at the concrete two-row frame, `and_filter` returns the
frame with `comb` added to both records, via the first clause of the
theorem. -/
theorem and_filter_adds_comb_witness :
    (and_filter bugFrame ["variable"] ["model"] [("variable", ["tas", "pr"])]).map
        (fun o => o.frame.rows) =
      Except.ok (bugFrame.rows.map (fun r => Row.set r "comb" (combCell ["variable"] r))) :=
  (and_filter_adds_comb bugFrame ["variable"] ["model"] [("variable", ["tas", "pr"])]
    (by decide) (by decide) (by decide)).1

/-- Claim C10: `ids_dict` dispatches on the first identifier's project
component compared with the exact strings `CMIP6` and `cmip5`; any other
component — including the uppercase spelling `CMIP5` — falls into the
branch that returns the never-bound local `results`, failing with an
unbound-name error instead of returning a facet-mapped frame, while the two
recognized spellings return the facet-mapped frame. -/
theorem ids_dict_dispatch :
    (∀ dids : List String, projectOf dids ≠ "CMIP6" → projectOf dids ≠ "cmip5" →
        ids_dict dids = Except.error (PyErr.unboundLocal "results")) ∧
    (∀ dids : List String, projectOf dids = "CMIP6" →
        ids_dict dids = Except.ok ⟨cmip6Facets, dids.map (didRow cmip6Facets)⟩) ∧
    (∀ dids : List String, projectOf dids = "cmip5" →
        ids_dict dids = Except.ok ⟨cmip5Facets, dids.map (didRow cmip5Facets)⟩) := by
  refine ⟨?_, ?_, ?_⟩
  · intro dids h1 h2
    rw [ids_dict]
    simp only [if_neg h1, if_neg h2]
  · intro dids h
    rw [ids_dict]
    simp only [if_pos h]
  · intro dids h
    rw [ids_dict]
    simp only [h]
    rfl

/-- Witness for C10: the uppercase `CMIP5` project component hits the
unbound-local branch, via the first clause of the theorem. -/
theorem ids_dict_dispatch_witness :
    ids_dict ["CMIP5.output1.MIROC.MIROC5.rcp45.mon.atmos.Amon.r1i1p1.v20120115"] =
      Except.error (PyErr.unboundLocal "results") :=
  ids_dict_dispatch.1 ["CMIP5.output1.MIROC.MIROC5.rcp45.mon.atmos.Amon.r1i1p1.v20120115"]
    (by decide) (by decide)

end Clef
